import Mathlib

/-!
Verification of the LaVideoLaPlusVue data scripts.

Shallow embedding of the two Python scripts of the repository:

* `LaVideoLaPlusVue/Data/fetch_channel_avatars.py` — the enrichment
  pipeline: load the dataset, back it up, extract unique channel ids,
  fetch avatar URLs from the YouTube API in batches of 50, merge them
  into the records, and save.
* `visualize_youtube_db.py` — the report pipeline: load the dataset,
  group videos by channel, render an HTML report, print statistics.

Python dicts are modelled as association lists with Python dict
semantics: assignment replaces the value in place when the key exists
and appends the key at the end otherwise; lookup returns the value of
the first matching key.  Machine effects (file writes, process exit)
are modelled as explicit traces; the network is an oracle mapping each
request chunk to a response or an error.
-/

/-- A JSON object (a Python dict) with string values, as an association
list in insertion order.  Keys of interest here are `channelId`,
`channelTitle`, `channelAvatarUrl`, and friends. -/
abbrev Rec := List (String × String)

/-- Python `d[k]` / `k in d`: value of the first matching key, if any. -/
def getKey (k : String) : Rec → Option String
  | [] => none
  | (k₂, v) :: rest => if k₂ = k then some v else getKey k rest

/-- Python `d[k] = v`: replace the value in place when the key exists,
append the pair at the end otherwise. -/
def setKey (r : Rec) (k v : String) : Rec :=
  match r with
  | [] => [(k, v)]
  | (k₂, v₂) :: rest =>
      if k₂ = k then (k, v) :: rest else (k₂, v₂) :: setKey rest k v

theorem getKey_setKey_self (r : Rec) (k v : String) :
    getKey k (setKey r k v) = some v := by
  induction r with
  | nil => simp [setKey, getKey]
  | cons hd tl ih =>
      obtain ⟨k₂, v₂⟩ := hd
      by_cases h : k₂ = k
      · simp [setKey, getKey, h]
      · simp [setKey, getKey, h, ih]

theorem getKey_setKey_ne (r : Rec) (k k₂ v : String) (hne : k₂ ≠ k) :
    getKey k₂ (setKey r k v) = getKey k₂ r := by
  induction r with
  | nil => simp [setKey, getKey, Ne.symm hne]
  | cons hd tl ih =>
      obtain ⟨k₃, v₃⟩ := hd
      by_cases h : k₃ = k
      · subst h
        simp [setKey, getKey, Ne.symm hne]
      · by_cases h2 : k₃ = k₂ <;> simp [setKey, getKey, h, h2, hne, ih]

theorem setKey_setKey_self (r : Rec) (k v : String) :
    setKey (setKey r k v) k v = setKey r k v := by
  induction r with
  | nil => simp [setKey]
  | cons hd tl ih =>
      obtain ⟨k₂, v₂⟩ := hd
      by_cases h : k₂ = k
      · simp [setKey, h]
      · simp [setKey, h, ih]

/-! ## Batch Fetcher: chunking (fetch_channel_avatars.py lines 84-91)

Python: `for i in range(0, len(channel_ids), batch_size):
           batch = channel_ids[i:i + batch_size]`
with `batch_size = 50`.  One network request is issued per batch, so
the list of batches below is in bijection with the requests issued. -/

/-- The successive slices `channel_ids[i:i+50]` for `i = 0, 50, 100, …`,
exactly the per-request batches of `fetch_channel_avatars_batch`. -/
def chunkList (l : List String) : List (List String) :=
  match l with
  | [] => []
  | x :: rest => (x :: rest).take 50 :: chunkList ((x :: rest).drop 50)
termination_by l.length
decreasing_by
  simp only [List.length_drop, List.length_cons]
  omega

theorem chunkList_nil : chunkList [] = [] := by rw [chunkList]

theorem chunkList_cons (x : String) (rest : List String) :
    chunkList (x :: rest) =
      (x :: rest).take 50 :: chunkList ((x :: rest).drop 50) := by
  rw [chunkList]

/-- Concatenating the batches gives back the input list. -/
theorem chunkList_flatten (l : List String) : (chunkList l).flatten = l := by
  induction l using chunkList.induct with
  | case1 => rw [chunkList_nil]; rfl
  | case2 x rest ih =>
      rw [chunkList_cons, List.flatten_cons, ih, List.take_append_drop]

/-- Every batch has at most 50 ids. -/
theorem chunkList_le_50 (l : List String) :
    ∀ c ∈ chunkList l, c.length ≤ 50 := by
  induction l using chunkList.induct with
  | case1 => intro c hc; simp [chunkList_nil] at hc
  | case2 x rest ih =>
      intro c hc
      rw [chunkList_cons] at hc
      rcases List.mem_cons.mp hc with h | h
      · subst h; exact le_trans (List.length_take_le 50 _) (le_refl 50)
      · exact ih c h

/-- The number of batches (hence of requests) is ceil(N / 50). -/
theorem chunkList_length (l : List String) :
    (chunkList l).length = (l.length + 49) / 50 := by
  induction l using chunkList.induct with
  | case1 => rw [chunkList_nil]; rfl
  | case2 x rest ih =>
      rw [chunkList_cons]
      simp only [List.length_cons, ih, List.length_drop]
      rcases Nat.le_total (rest.length + 1) 50 with h | h
      · have h1 : rest.length + 1 - 50 = 0 := by omega
        have h2 : (rest.length + 1 + 49) / 50 = 1 :=
          Nat.div_eq_of_lt_le (by omega) (by omega)
        rw [h1, h2]
      · have h1 : rest.length + 1 - 50 + 49 + 50 = rest.length + 1 + 49 := by
          omega
        rw [← h1, Nat.add_div_right _ (by omega)]

/-! ## Batch Fetcher: response handling (fetch_channel_avatars.py lines 102-143)

An API response item carries the channel id, its title, and a mapping
from thumbnail quality names to URLs (the nested `url` field of each
quality entry is flattened into the value, as the code only ever reads
`thumbnails[quality]['url']`). -/

structure ApiItem where
  id : String
  title : String
  thumbnails : Rec
deriving DecidableEq

/-- Lines 115-121: starting from `avatar_url = None`, scan the qualities
`high`, `medium`, `default` in order and keep the URL of the first one
present in the thumbnail mapping. -/
def selectAvatar (thumbnails : Rec) : Option String :=
  match getKey "high" thumbnails with
  | some url => some url
  | none =>
      match getKey "medium" thumbnails with
      | some url => some url
      | none => getKey "default" thumbnails

/-- The avatar-URL accumulator dict, `avatar_urls` in the code. -/
abbrev AvatarMap := Rec

/-- Lines 109-127: one loop iteration over `data['items']`.  Python
`if avatar_url:` is a truthiness test, so both `None` and the empty
string leave the map untouched. -/
def processItem (m : AvatarMap) (item : ApiItem) : AvatarMap :=
  match selectAvatar item.thumbnails with
  | some url => if url = "" then m else setKey m item.id url
  | none => m

/-- A network oracle: the response the API gives to the single request
carrying one chunk of ids, or the exception the request raises. -/
abbrev Oracle := List String → Except String (List ApiItem)

/-- Lines 102-140: one chunk.  A raised `RequestException` or any other
exception is caught and the loop does `continue`, leaving the map as it
was; a successful response folds `processItem` over its items. -/
def processChunk (oracle : Oracle) (m : AvatarMap) (chunk : List String) :
    AvatarMap :=
  match oracle chunk with
  | .error _ => m
  | .ok items => items.foldl processItem m

/-- Lines 84-143 without the API-key precondition (lines 79-82, modelled
in `mainRun`): chunk the id list and process each chunk in order. -/
def fetch_channel_avatars_batch (oracle : Oracle) (channel_ids : List String) :
    AvatarMap :=
  (chunkList channel_ids).foldl (processChunk oracle) []

/-! ## Deduplicator (fetch_channel_avatars.py lines 62-70)

Python builds a `set`; the model keeps the ids as a duplicate-free list
in first-encounter order, which realises the same set. -/

/-- Lines 64-67: collect each record's `channelId` when the key is
present, skipping values already seen. -/
def extract_unique_channel_ids (data : List Rec) : List String :=
  data.foldl
    (fun s item =>
      match getKey "channelId" item with
      | some cid => if cid ∈ s then s else s ++ [cid]
      | none => s)
    []

/-! ## Merger (fetch_channel_avatars.py lines 145-155) -/

/-- Lines 150-151 for a single record: when the record has a
`channelId` that is a key of the avatar map, set `channelAvatarUrl` to
the mapped URL; otherwise leave the record as it is. -/
def enrichItem (avatar_urls : AvatarMap) (item : Rec) : Rec :=
  match getKey "channelId" item with
  | some cid =>
      match getKey cid avatar_urls with
      | some url => setKey item "channelAvatarUrl" url
      | none => item
  | none => item

/-- Line 150 as a Boolean test, used for the `enriched_count`. -/
def enrichedP (avatar_urls : AvatarMap) (item : Rec) : Bool :=
  match getKey "channelId" item with
  | some cid => (getKey cid avatar_urls).isSome
  | none => false

/-- Lines 145-155: enrich every record in place and count how many
records the loop touched.  The in-place mutation of the Python loop is
observationally the per-record map below. -/
def enrich_data_with_avatars (data : List Rec) (avatar_urls : AvatarMap) :
    List Rec × Nat :=
  (data.map (enrichItem avatar_urls), data.countP (enrichedP avatar_urls))

/-! ## Orchestration (fetch_channel_avatars.py lines 157-201)

File writes are modelled as an effect trace; `sys.exit(1)` becomes the
exit code 1 and truncates the trace at the point of exit.  A failing
`save_json_data` (lines 52-60) raises inside `json.dump` before a
complete document is on disk, so the model records a write effect only
for a successful save. -/

/-- Line 31. -/
def DATA_JSON_PATH : String := "data.json"

/-- Line 32. -/
def BACKUP_PATH : String := "data_backup.json"

/-- Line 28: the placeholder the key check of lines 79-82 rejects. -/
def PLACEHOLDER_KEY : String := "YOUR_YOUTUBE_API_KEY_HERE"

/-- An observable file write performed by the script. -/
inductive Effect where
  | write (path : String) (content : List Rec)
deriving DecidableEq

/-- The ambient world `main` runs against: the configured API key, the
outcome of loading `data.json`, the outcomes of the two saves, and the
network oracle. -/
structure Env where
  apiKey : String
  loadResult : Except String (List Rec)
  backupSave : Except String Unit
  mainSave : Except String Unit
  oracle : Oracle

/-- Lines 79-82: `if not YOUTUBE_API_KEY or YOUTUBE_API_KEY == "YOUR_YOUTUBE_API_KEY_HERE"`.
An empty string is falsy in Python. -/
def apiKeyInvalid (key : String) : Bool :=
  key = "" || key = PLACEHOLDER_KEY

/-- Lines 157-201: the whole enrichment run.  Returns the process exit
code together with the trace of completed file writes, in order. -/
def mainRun (env : Env) : Nat × List Effect :=
  match env.loadResult with
  | .error _ => (1, [])
  | .ok data =>
    match env.backupSave with
    | .error _ => (1, [])
    | .ok _ =>
      let trace := [Effect.write BACKUP_PATH data]
      let channel_ids := extract_unique_channel_ids data
      if channel_ids = [] then (1, trace)
      else if apiKeyInvalid env.apiKey then (1, trace)
      else
        let avatar_urls := fetch_channel_avatars_batch env.oracle channel_ids
        if avatar_urls = [] then (1, trace)
        else
          let enriched := (enrich_data_with_avatars data avatar_urls).1
          match env.mainSave with
          | .error _ => (1, trace)
          | .ok _ => (0, trace ++ [Effect.write DATA_JSON_PATH enriched])

/-! ## Report Pipeline (visualize_youtube_db.py)

A video record of the report pipeline.  `group_videos_by_channel`
indexes `channelId` and `channelTitle` unconditionally (a KeyError on a
record lacking them would abort the run), so the model makes them
fields; `channelAvatarUrl` is read with `video.get(…, '')` and is
optional, as are the purely rendered fields. -/

structure Video where
  id : String
  title : String
  channelId : String
  channelTitle : String
  channelAvatarUrl : Option String
  viewCount : Nat
  thumbnailUrl : String
deriving DecidableEq

/-- Line 22: the composite grouping key
`(video['channelId'], video['channelTitle'], video.get('channelAvatarUrl', ''))`. -/
def channelKey (v : Video) : String × String × String :=
  (v.channelId, v.channelTitle, v.channelAvatarUrl.getD "")

/-- One group: its key and its member videos in encounter order. -/
abbrev ChGroup := (String × String × String) × List Video

/-- One iteration of the loop of lines 21-23 over the insertion-ordered
dict `channels`: append the video to its group, creating the group at
the end on first encounter. -/
def insertVideo (groups : List ChGroup) (v : Video) : List ChGroup :=
  match groups with
  | [] => [(channelKey v, [v])]
  | (k, vs) :: rest =>
      if k = channelKey v then (k, vs ++ [v]) :: rest
      else (k, vs) :: insertVideo rest v

/-- Lines 19-23: the `defaultdict(list)` grouping pass. -/
def groupPass (videos : List Video) : List ChGroup :=
  videos.foldl insertVideo []

/-- Stable insertion of a group into a list sorted by descending member
count: the new group goes after every group with at least as many
members. -/
def insertByCount (sorted : List ChGroup) (g : ChGroup) : List ChGroup :=
  match sorted with
  | [] => [g]
  | h :: t =>
      if g.2.length ≤ h.2.length then h :: insertByCount t g
      else g :: h :: t

/-- Line 26: `sorted(channels.items(), key=lambda x: len(x[1]), reverse=True)`,
a stable sort by descending member count. -/
def sortByCountDesc (groups : List ChGroup) : List ChGroup :=
  groups.foldl insertByCount []

/-- Lines 17-28. -/
def group_videos_by_channel (videos : List Video) : List ChGroup :=
  sortByCountDesc (groupPass videos)

/-! ## Report Pipeline orchestration (visualize_youtube_db.py lines 286-326)

The HTML template of `generate_html` is pure string assembly over the
grouped data (spec section 4.7 keeps it out of scope), so the write
effect records the grouped data the document renders instead of the
rendered bytes. -/

/-- An unhandled Python exception that ends the report run. -/
inductive VizError where
  | zeroDivision
deriving DecidableEq

/-- An observable effect of the report run. -/
inductive VizEffect where
  | writeHtml (path : String) (channels : List ChGroup)
deriving DecidableEq

/-- Line 290. -/
def OUTPUT_FILE : String := "youtube_db_visualization.html"

/-- Lines 286-326: the whole report run.  When the data file is missing
the function returns early (exit 0, no write).  Otherwise it groups,
writes the HTML document, then prints statistics; line 320 evaluates
`len(videos) / len(channels)`, which raises ZeroDivisionError when
there are no groups — after the write has already happened. -/
def visualizeMain (dataFileExists : Bool) (videos : List Video) :
    List VizEffect × Option VizError :=
  if !dataFileExists then ([], none)
  else
    let channels := group_videos_by_channel videos
    let trace := [VizEffect.writeHtml OUTPUT_FILE channels]
    if channels.length = 0 then (trace, some VizError.zeroDivision)
    else (trace, none)

/-! ## Claims -/

/-- C1: for every non-empty list of unique channel ids of size N, the
Batch Fetcher issues exactly ceil(N/50) network requests (one per
batch), each batch has at most 50 ids, concatenating the batches gives
back exactly the input ids (none omitted, none duplicated), and the
batches are pairwise disjoint. -/
theorem c1_batch_partition (ids : List String) (_hne : ids ≠ [])
    (hnd : ids.Nodup) :
    (chunkList ids).length = (ids.length + 49) / 50 ∧
    (∀ c ∈ chunkList ids, c.length ≤ 50) ∧
    (chunkList ids).flatten = ids ∧
    (chunkList ids).Pairwise List.Disjoint := by
  refine ⟨chunkList_length ids, chunkList_le_50 ids, chunkList_flatten ids, ?_⟩
  have hflat : (chunkList ids).flatten.Nodup := by
    rw [chunkList_flatten]; exact hnd
  exact (List.nodup_flatten.mp hflat).2

/-- Witness for C1 at the two-id input. -/
theorem c1_batch_partition_witness :
    (chunkList ["a", "b"]).length = ((["a", "b"] : List String).length + 49) / 50 ∧
    (∀ c ∈ chunkList ["a", "b"], c.length ≤ 50) ∧
    (chunkList ["a", "b"]).flatten = ["a", "b"] ∧
    (chunkList ["a", "b"]).Pairwise List.Disjoint :=
  c1_batch_partition ["a", "b"] (by decide) (by decide)

/-- C2: avatar selection returns the URL of the first present key in
the order high, medium, default; a thumbnail mapping with none of the
three keys yields no selection and the processing of such an item
leaves the avatar map untouched (the channel is omitted, not an
error). -/
theorem c2_avatar_selection (t : Rec) :
    (∀ u, getKey "high" t = some u → selectAvatar t = some u) ∧
    (getKey "high" t = none →
      ∀ u, getKey "medium" t = some u → selectAvatar t = some u) ∧
    (getKey "high" t = none → getKey "medium" t = none →
      selectAvatar t = getKey "default" t) ∧
    (getKey "high" t = none → getKey "medium" t = none →
      getKey "default" t = none →
      selectAvatar t = none ∧
      ∀ (m : AvatarMap) (cid title : String),
        processItem m ⟨cid, title, t⟩ = m) := by
  refine ⟨?_, ?_, ?_, ?_⟩
  · intro u hu; simp [selectAvatar, hu]
  · intro hh u hu; simp [selectAvatar, hh, hu]
  · intro hh hm; simp [selectAvatar, hh, hm]
  · intro hh hm hd
    have hsel : selectAvatar t = none := by simp [selectAvatar, hh, hm, hd]
    exact ⟨hsel, fun m cid title => by simp [processItem, hsel]⟩

/-- Witness for C2: a mapping with medium and default but no high
selects the medium URL, and an item with none of the three keys leaves
the map unchanged. -/
theorem c2_avatar_selection_witness :
    selectAvatar [("medium", "mu"), ("default", "du")] = some "mu" ∧
    processItem [("X", "xu")] ⟨"c", "t", [("maxres", "ru")]⟩ = [("X", "xu")] :=
  ⟨(c2_avatar_selection [("medium", "mu"), ("default", "du")]).2.1 (by decide)
      "mu" (by decide),
   ((c2_avatar_selection [("maxres", "ru")]).2.2.2 (by decide) (by decide)
      (by decide)).2 [("X", "xu")] "c" "t"⟩

theorem enrichItem_unchanged (m : AvatarMap) (r : Rec)
    (h : getKey "channelId" r = none ∨
      ∀ cid, getKey "channelId" r = some cid → getKey cid m = none) :
    enrichItem m r = r := by
  cases hcid : getKey "channelId" r with
  | none => simp [enrichItem, hcid]
  | some cid =>
      rcases h with h | h
      · rw [hcid] at h; exact absurd h (by simp)
      · simp [enrichItem, hcid, h cid hcid]

theorem enrichItem_frame (m : AvatarMap) (r : Rec) (k : String)
    (hk : k ≠ "channelAvatarUrl") :
    getKey k (enrichItem m r) = getKey k r := by
  cases hcid : getKey "channelId" r with
  | none => simp [enrichItem, hcid]
  | some cid =>
      cases hurl : getKey cid m with
      | none => simp [enrichItem, hcid, hurl]
      | some url =>
          simp [enrichItem, hcid, hurl,
            getKey_setKey_ne r "channelAvatarUrl" k url hk]

/-- C4: the Merger maps each record through `enrichItem`; a record
whose channelId is absent from the avatar map is returned entirely
unchanged (not a single field added or modified), and an enriched
record agrees with the original on every key other than
channelAvatarUrl — in particular channelId is never altered. -/
theorem c4_merge_frame (data : List Rec) (m : AvatarMap) :
    (enrich_data_with_avatars data m).1.length = data.length ∧
    ∀ (i : Nat) (r : Rec), data[i]? = some r →
      (enrich_data_with_avatars data m).1[i]? = some (enrichItem m r) ∧
      ((getKey "channelId" r = none ∨
        ∀ cid, getKey "channelId" r = some cid → getKey cid m = none) →
          enrichItem m r = r) ∧
      (∀ k, k ≠ "channelAvatarUrl" →
        getKey k (enrichItem m r) = getKey k r) ∧
      getKey "channelId" (enrichItem m r) = getKey "channelId" r := by
  refine ⟨by simp [enrich_data_with_avatars], ?_⟩
  intro i r hr
  refine ⟨?_, enrichItem_unchanged m r, enrichItem_frame m r, ?_⟩
  · simp [enrich_data_with_avatars, List.getElem?_map, hr]
  · exact enrichItem_frame m r "channelId" (by decide)

/-- Witness for C4 at a two-record dataset, one record mapped and one
not. -/
theorem c4_merge_frame_witness :
    (enrich_data_with_avatars [[("channelId", "A")], [("channelId", "B")]]
        [("A", "u")]).1[1]? =
      some (enrichItem [("A", "u")] [("channelId", "B")]) ∧
    enrichItem [("A", "u")] [("channelId", "B")] = [("channelId", "B")] :=
  ⟨((c4_merge_frame [[("channelId", "A")], [("channelId", "B")]]
        [("A", "u")]).2 1 [("channelId", "B")] (by decide)).1,
   ((c4_merge_frame [[("channelId", "A")], [("channelId", "B")]]
        [("A", "u")]).2 1 [("channelId", "B")] (by decide)).2.1
     (Or.inr (fun cid hcid => by
        simp [getKey] at hcid
        subst hcid
        decide))⟩

theorem enrichItem_idem (m : AvatarMap) (r : Rec) :
    enrichItem m (enrichItem m r) = enrichItem m r := by
  cases hcid : getKey "channelId" r with
  | none =>
      rw [enrichItem_unchanged m r (Or.inl hcid),
        enrichItem_unchanged m r (Or.inl hcid)]
  | some cid =>
      cases hurl : getKey cid m with
      | none =>
          have hun : enrichItem m r = r :=
            enrichItem_unchanged m r (Or.inr (fun c hc => by
              rw [hcid] at hc
              cases hc
              exact hurl))
          rw [hun, hun]
      | some url =>
          have h1 : enrichItem m r = setKey r "channelAvatarUrl" url := by
            simp [enrichItem, hcid, hurl]
          have h2 : getKey "channelId" (setKey r "channelAvatarUrl" url) =
              some cid := by
            rw [getKey_setKey_ne r "channelAvatarUrl" "channelId" url
              (by decide), hcid]
          rw [h1]
          simp [enrichItem, h2, hurl, setKey_setKey_self]

/-- C5: the Merger is idempotent — applying the merge twice with the
same avatar mapping yields the same record collection as applying it
once. -/
theorem c5_merge_idempotent (data : List Rec) (m : AvatarMap) :
    (enrich_data_with_avatars (enrich_data_with_avatars data m).1 m).1 =
      (enrich_data_with_avatars data m).1 := by
  simp only [enrich_data_with_avatars, List.map_map]
  exact List.map_congr_left (fun r _ => enrichItem_idem m r)

/-- Whether the request for a chunk succeeds under the given oracle. -/
def chunkOk (oracle : Oracle) (c : List String) : Bool :=
  match oracle c with
  | .ok _ => true
  | .error _ => false

theorem foldl_processChunk_filter (oracle : Oracle) (chunks : List (List String))
    (m : AvatarMap) :
    chunks.foldl (processChunk oracle) m =
      (chunks.filter (chunkOk oracle)).foldl (processChunk oracle) m := by
  induction chunks generalizing m with
  | nil => rfl
  | cons c rest ih =>
      cases hc : oracle c with
      | error e =>
          have hop : processChunk oracle m c = m := by
            simp [processChunk, hc]
          have hflt : chunkOk oracle c = false := by simp [chunkOk, hc]
          simp [List.foldl_cons, List.filter_cons, hflt, hop, ih]
      | ok items =>
          have hflt : chunkOk oracle c = true := by simp [chunkOk, hc]
          simp [List.foldl_cons, List.filter_cons, hflt, ih]

/-- C6: a network or parse error on one chunk is skipped, the fetch
proceeds with the remaining chunks, and the result is exactly what
processing only the successful chunks produces — entries resolved from
other chunks are retained. -/
theorem c6_chunk_failure_skipped (oracle : Oracle) (channel_ids : List String) :
    fetch_channel_avatars_batch oracle channel_ids =
      ((chunkList channel_ids).filter (chunkOk oracle)).foldl
        (processChunk oracle) [] :=
  foldl_processChunk_filter oracle (chunkList channel_ids) []

theorem extract_step_no_channelId (s : List String) (item : Rec)
    (h : getKey "channelId" item = none) :
    (match getKey "channelId" item with
      | some cid => if cid ∈ s then s else s ++ [cid]
      | none => s) = s := by
  rw [h]

/-- C9: a record lacking the channelId key is tolerated end to end —
the Deduplicator collects nothing from it, the Merger returns it
unchanged in place, and it never counts as enriched. -/
theorem c9_missing_channelId (data₁ data₂ : List Rec) (item : Rec)
    (m : AvatarMap) (h : getKey "channelId" item = none) :
    extract_unique_channel_ids (data₁ ++ item :: data₂) =
      extract_unique_channel_ids (data₁ ++ data₂) ∧
    enrichItem m item = item ∧
    (enrich_data_with_avatars (data₁ ++ item :: data₂) m).1 =
      (enrich_data_with_avatars data₁ m).1 ++
        item :: (enrich_data_with_avatars data₂ m).1 ∧
    (enrich_data_with_avatars (data₁ ++ item :: data₂) m).2 =
      (enrich_data_with_avatars (data₁ ++ data₂) m).2 := by
  have hene : enrichItem m item = item := enrichItem_unchanged m item (Or.inl h)
  have hcnt : enrichedP m item = false := by simp [enrichedP, h]
  refine ⟨?_, hene, ?_, ?_⟩
  · unfold extract_unique_channel_ids
    rw [List.foldl_append, List.foldl_append, List.foldl_cons,
      extract_step_no_channelId _ item h]
  · simp [enrich_data_with_avatars, hene]
  · simp [enrich_data_with_avatars, List.countP_append, List.countP_cons, hcnt]

/-- Witness for C9: a title-only record between two normal records. -/
theorem c9_missing_channelId_witness :
    extract_unique_channel_ids
        [[("channelId", "A")], [("title", "t")], [("channelId", "B")]] =
      extract_unique_channel_ids [[("channelId", "A")], [("channelId", "B")]] ∧
    enrichItem [("A", "u")] [("title", "t")] = [("title", "t")] ∧
    (enrich_data_with_avatars
        [[("channelId", "A")], [("title", "t")], [("channelId", "B")]]
        [("A", "u")]).1 =
      (enrich_data_with_avatars [[("channelId", "A")]] [("A", "u")]).1 ++
        [("title", "t")] ::
          (enrich_data_with_avatars [[("channelId", "B")]] [("A", "u")]).1 ∧
    (enrich_data_with_avatars
        [[("channelId", "A")], [("title", "t")], [("channelId", "B")]]
        [("A", "u")]).2 =
      (enrich_data_with_avatars [[("channelId", "A")], [("channelId", "B")]]
        [("A", "u")]).2 :=
  c9_missing_channelId [[("channelId", "A")]] [[("channelId", "B")]]
    [("title", "t")] [("A", "u")] (by decide)

/-- C3 counterexample environment: everything the claim lists is
healthy — the load succeeds, both saves succeed, the API key is real,
the dataset has a channel id — but the API finds no channels, so no
avatar is resolved. -/
def envC3 : Env :=
  { apiKey := "real-key"
    loadResult := .ok [[("channelId", "A")]]
    backupSave := .ok ()
    mainSave := .ok ()
    oracle := fun _ => .ok [] }

theorem chunkList_single : chunkList ["A"] = [["A"]] := by
  rw [chunkList_cons]
  show (["A"] : List String) :: chunkList [] = [["A"]]
  rw [chunkList_nil]

/-- C3 counterexample: lines 182-184 of the script exit with status 1
when the fetched avatar mapping is empty, a condition outside the
claimed list — here the run exits 1 although the load succeeded, both
saves succeed, the credential is set and the unique-channel-id set is
non-empty. -/
theorem c3_counterexample :
    (mainRun envC3).1 = 1 ∧
    envC3.loadResult = .ok [[("channelId", "A")]] ∧
    envC3.backupSave = .ok () ∧
    envC3.mainSave = .ok () ∧
    apiKeyInvalid envC3.apiKey = false ∧
    extract_unique_channel_ids [[("channelId", "A")]] ≠ [] := by
  have hfetch :
      fetch_channel_avatars_batch (fun _ => Except.ok ([] : List ApiItem)) ["A"] = [] := by
    unfold fetch_channel_avatars_batch
    rw [chunkList_single]
    rfl
  have hex : extract_unique_channel_ids [[("channelId", "A")]] = ["A"] := by
    decide
  refine ⟨?_, rfl, rfl, rfl, by decide, by decide⟩
  simp [mainRun, envC3, hex, hfetch, apiKeyInvalid, PLACEHOLDER_KEY]

/-- C3 as amended: the run exits 0 exactly when the load succeeds, the
backup save succeeds, the unique-channel-id set is non-empty, the API
credential is neither empty nor the placeholder, the fetched avatar
mapping is non-empty, and the final save succeeds; every other
condition exits non-zero, and no further condition is fatal. -/
theorem c3_exit_codes (env : Env) :
    (mainRun env).1 = 0 ↔
      ∃ data, env.loadResult = .ok data ∧
        env.backupSave = .ok () ∧
        extract_unique_channel_ids data ≠ [] ∧
        apiKeyInvalid env.apiKey = false ∧
        fetch_channel_avatars_batch env.oracle
          (extract_unique_channel_ids data) ≠ [] ∧
        env.mainSave = .ok () := by
  unfold mainRun
  cases hload : env.loadResult with
  | error e => simp [hload]
  | ok data =>
      cases hb : env.backupSave with
      | error e => simp [hload, hb]
      | ok u =>
          cases u
          by_cases hid : extract_unique_channel_ids data = []
          · simp [hload, hb, hid]
          · by_cases hkey : apiKeyInvalid env.apiKey = true
            · simp [hload, hb, hid, hkey]
            · by_cases hav : fetch_channel_avatars_batch env.oracle
                  (extract_unique_channel_ids data) = []
              · simp [hload, hb, hid, hkey, hav]
              · cases hm : env.mainSave with
                | error e => simp [hload, hb, hid, hkey, hav, hm]
                | ok u2 =>
                    cases u2
                    simp [hload, hb, hid, hkey, hav, hm]

/-- C7: whenever the dataset loads and the backup save succeeds, the
first file write of the run is the backup, and its content is exactly
the collection as loaded, before any enrichment. -/
theorem c7_backup_first (env : Env) (data : List Rec)
    (hload : env.loadResult = .ok data) (hsave : env.backupSave = .ok ()) :
    (mainRun env).2.head? = some (Effect.write BACKUP_PATH data) := by
  unfold mainRun
  rw [hload, hsave]
  by_cases hid : extract_unique_channel_ids data = []
  · simp [hid]
  · by_cases hkey : apiKeyInvalid env.apiKey = true
    · simp [hid, hkey]
    · by_cases hav : fetch_channel_avatars_batch env.oracle
          (extract_unique_channel_ids data) = []
      · simp [hid, hkey, hav]
      · cases hm : env.mainSave with
        | error e => simp [hid, hkey, hav, hm]
        | ok u => cases u; simp [hid, hkey, hav, hm]

/-- Witness environment for C7: a run that fails later (dead network,
failing final save) still writes the backup first. -/
def envC7 : Env :=
  { apiKey := ""
    loadResult := .ok [[("title", "t")]]
    backupSave := .ok ()
    mainSave := .error "disk full"
    oracle := fun _ => .error "network down" }

/-- Witness for C7. -/
theorem c7_backup_first_witness :
    (mainRun envC7).2.head? = some (Effect.write BACKUP_PATH [[("title", "t")]]) :=
  c7_backup_first envC7 [[("title", "t")]] rfl rfl

/-! ## Grouper lemmas (visualize_youtube_db.py lines 17-28) -/

/-- All videos held by a list of groups, in group order. -/
def groupsFlat (gs : List ChGroup) : List Video :=
  (gs.map Prod.snd).flatten

theorem groupsFlat_nil : groupsFlat [] = [] := rfl

theorem groupsFlat_cons (g : ChGroup) (gs : List ChGroup) :
    groupsFlat (g :: gs) = g.2 ++ groupsFlat gs := rfl

theorem insertVideo_flat (gs : List ChGroup) (v : Video) :
    List.Perm (groupsFlat (insertVideo gs v)) (groupsFlat gs ++ [v]) := by
  induction gs with
  | nil => simp [insertVideo, groupsFlat]
  | cons g rest ih =>
      obtain ⟨k, vs⟩ := g
      by_cases h : k = channelKey v
      · simp only [insertVideo, if_pos h, groupsFlat_cons]
        rw [List.append_assoc, List.append_assoc]
        exact List.Perm.append_left vs
          (List.perm_append_comm.trans List.Perm.rfl)
      · simp only [insertVideo, if_neg h, groupsFlat_cons]
        rw [List.append_assoc]
        exact List.Perm.append_left vs ih

theorem foldl_insertVideo_flat (videos : List Video) (gs : List ChGroup) :
    List.Perm (groupsFlat (videos.foldl insertVideo gs))
      (groupsFlat gs ++ videos) := by
  induction videos generalizing gs with
  | nil => simp
  | cons v vs ih =>
      rw [List.foldl_cons]
      refine (ih (insertVideo gs v)).trans ?_
      have h1 : List.Perm (groupsFlat (insertVideo gs v) ++ vs)
          ((groupsFlat gs ++ [v]) ++ vs) :=
        (insertVideo_flat gs v).append_right vs
      refine h1.trans ?_
      rw [List.append_assoc]
      exact List.Perm.rfl

theorem groupPass_flat (videos : List Video) :
    List.Perm (groupsFlat (groupPass videos)) videos :=
  foldl_insertVideo_flat videos []

/-- Every video stored in a group carries that group's key. -/
def GoodKeys (gs : List ChGroup) : Prop :=
  ∀ g ∈ gs, ∀ v ∈ g.2, channelKey v = g.1

theorem insertVideo_goodKeys (gs : List ChGroup) (v : Video)
    (h : GoodKeys gs) : GoodKeys (insertVideo gs v) := by
  induction gs with
  | nil =>
      intro g hg w hw
      simp [insertVideo] at hg
      subst hg
      simp at hw
      subst hw
      rfl
  | cons g₀ rest ih =>
      obtain ⟨k, vs⟩ := g₀
      by_cases hk : k = channelKey v
      · intro g hg w hw
        simp only [insertVideo, if_pos hk] at hg
        rcases List.mem_cons.mp hg with hg | hg
        · subst hg
          simp only at hw
          rcases List.mem_append.mp hw with hw | hw
          · exact h (k, vs) (List.mem_cons_self _ _) w hw
          · simp at hw
            subst hw
            exact hk.symm
        · exact h g (List.mem_cons_of_mem _ hg) w hw
      · intro g hg w hw
        simp only [insertVideo, if_neg hk] at hg
        rcases List.mem_cons.mp hg with hg | hg
        · subst hg
          exact h (k, vs) (List.mem_cons_self _ _) w hw
        · exact ih (fun g₂ hg₂ => h g₂ (List.mem_cons_of_mem _ hg₂)) g hg w hw

theorem foldl_insertVideo_goodKeys (videos : List Video) (gs : List ChGroup)
    (h : GoodKeys gs) : GoodKeys (videos.foldl insertVideo gs) := by
  induction videos generalizing gs with
  | nil => exact h
  | cons v vs ih => exact ih (insertVideo gs v) (insertVideo_goodKeys gs v h)

theorem groupPass_goodKeys (videos : List Video) :
    GoodKeys (groupPass videos) :=
  foldl_insertVideo_goodKeys videos [] (fun g hg => by simp at hg)

theorem insertVideo_keys (gs : List ChGroup) (v : Video) :
    (insertVideo gs v).map Prod.fst =
      if channelKey v ∈ gs.map Prod.fst then gs.map Prod.fst
      else gs.map Prod.fst ++ [channelKey v] := by
  induction gs with
  | nil => simp [insertVideo]
  | cons g rest ih =>
      obtain ⟨k, vs⟩ := g
      by_cases hk : k = channelKey v
      · simp [insertVideo, hk]
      · simp only [insertVideo, if_neg hk, List.map_cons, ih]
        have hne : channelKey v ≠ k := fun h2 => hk h2.symm
        by_cases hmem : channelKey v ∈ rest.map Prod.fst
        · simp [hmem, hne]
        · simp [hmem, hne]

theorem insertVideo_keys_nodup (gs : List ChGroup) (v : Video)
    (h : (gs.map Prod.fst).Nodup) :
    ((insertVideo gs v).map Prod.fst).Nodup := by
  rw [insertVideo_keys]
  by_cases hmem : channelKey v ∈ gs.map Prod.fst
  · simpa [hmem] using h
  · simp [hmem, List.nodup_append, h]

theorem foldl_insertVideo_keys_nodup (videos : List Video) (gs : List ChGroup)
    (h : (gs.map Prod.fst).Nodup) :
    ((videos.foldl insertVideo gs).map Prod.fst).Nodup := by
  induction videos generalizing gs with
  | nil => exact h
  | cons v vs ih =>
      exact ih (insertVideo gs v) (insertVideo_keys_nodup gs v h)

theorem groupPass_keys_nodup (videos : List Video) :
    ((groupPass videos).map Prod.fst).Nodup :=
  foldl_insertVideo_keys_nodup videos [] (by simp)

/-! ## Sort by descending member count (visualize_youtube_db.py line 26) -/

/-- The order the report sorts by: a group before a group with at most
as many members. -/
def DescCount (a b : ChGroup) : Prop :=
  b.2.length ≤ a.2.length

instance : DecidableRel DescCount := fun a b =>
  inferInstanceAs (Decidable (b.2.length ≤ a.2.length))

theorem insertByCount_perm (s : List ChGroup) (g : ChGroup) :
    List.Perm (insertByCount s g) (g :: s) := by
  induction s with
  | nil => exact List.Perm.rfl
  | cons h t ih =>
      simp only [insertByCount]
      by_cases hle : g.2.length ≤ h.2.length
      · rw [if_pos hle]
        exact (ih.cons h).trans (List.Perm.swap g h t)
      · rw [if_neg hle]

theorem sortByCountDesc_perm_aux (gs : List ChGroup) (s : List ChGroup) :
    List.Perm (gs.foldl insertByCount s) (s ++ gs) := by
  induction gs generalizing s with
  | nil => simp
  | cons g rest ih =>
      rw [List.foldl_cons]
      refine (ih (insertByCount s g)).trans ?_
      refine ((insertByCount_perm s g).append_right rest).trans ?_
      exact List.perm_middle.symm

theorem sortByCountDesc_perm (gs : List ChGroup) :
    List.Perm (sortByCountDesc gs) gs :=
  sortByCountDesc_perm_aux gs []

theorem insertByCount_sorted (s : List ChGroup) (g : ChGroup)
    (hs : s.Pairwise DescCount) :
    (insertByCount s g).Pairwise DescCount := by
  induction s with
  | nil => simp [insertByCount]
  | cons h t ih =>
      rw [List.pairwise_cons] at hs
      obtain ⟨hhead, ht⟩ := hs
      simp only [insertByCount]
      by_cases hle : g.2.length ≤ h.2.length
      · rw [if_pos hle, List.pairwise_cons]
        refine ⟨?_, ih ht⟩
        intro x hx
        rcases (insertByCount_perm t g).mem_iff.mp hx with hx2
        rcases List.mem_cons.mp hx2 with hx3 | hx3
        · subst hx3; exact hle
        · exact hhead x hx3
      · rw [if_neg hle, List.pairwise_cons]
        refine ⟨?_, List.pairwise_cons.mpr ⟨hhead, ht⟩⟩
        intro x hx
        rcases List.mem_cons.mp hx with hx2 | hx2
        · subst hx2
          exact le_of_lt (Nat.lt_of_not_le hle)
        · exact le_trans (hhead x hx2) (le_of_lt (Nat.lt_of_not_le hle))

theorem sortByCountDesc_sorted_aux (gs : List ChGroup) (s : List ChGroup)
    (hs : s.Pairwise DescCount) :
    (gs.foldl insertByCount s).Pairwise DescCount := by
  induction gs generalizing s with
  | nil => exact hs
  | cons g rest ih =>
      exact ih (insertByCount s g) (insertByCount_sorted s g hs)

theorem sortByCountDesc_sorted (gs : List ChGroup) :
    (sortByCountDesc gs).Pairwise DescCount :=
  sortByCountDesc_sorted_aux gs [] (by simp)

/-- C8: the Grouper partitions the collection — the concatenation of
the groups is a permutation of the input (each record kept exactly
once), every member of a group carries that group's composite key, the
group keys are pairwise distinct (so a record belongs to exactly one
group, the one for its key), the group sizes sum to the record count,
and the groups come out ordered by descending member count. -/
theorem c8_grouping_partition (videos : List Video) :
    List.Perm (groupsFlat (group_videos_by_channel videos)) videos ∧
    (((group_videos_by_channel videos).map fun g => g.2.length).sum =
      videos.length) ∧
    (∀ g ∈ group_videos_by_channel videos, ∀ v ∈ g.2, channelKey v = g.1) ∧
    ((group_videos_by_channel videos).map Prod.fst).Nodup ∧
    (group_videos_by_channel videos).Pairwise DescCount := by
  have hperm : List.Perm (group_videos_by_channel videos) (groupPass videos) :=
    sortByCountDesc_perm (groupPass videos)
  have hflat : List.Perm (groupsFlat (group_videos_by_channel videos)) videos :=
    ((hperm.map Prod.snd).flatten).trans (groupPass_flat videos)
  refine ⟨hflat, ?_, ?_, ?_, sortByCountDesc_sorted (groupPass videos)⟩
  · have hlen := hflat.length_eq
    rw [groupsFlat, List.length_flatten, List.map_map] at hlen
    exact hlen
  · intro g hg v hv
    exact groupPass_goodKeys videos g (hperm.mem_iff.mp hg) v hv
  · exact ((hperm.map Prod.fst).nodup_iff).mpr (groupPass_keys_nodup videos)

/-- Witness for C8 at a three-video dataset with two channels. -/
theorem c8_grouping_partition_witness :
    channelKey ⟨"v1", "t1", "A", "ChA", none, 10, "u1"⟩ = ("A", "ChA", "") ∧
    List.Perm
      (groupsFlat (group_videos_by_channel
        [⟨"v1", "t1", "A", "ChA", none, 10, "u1"⟩,
         ⟨"v2", "t2", "A", "ChA", none, 5, "u2"⟩,
         ⟨"v3", "t3", "B", "ChB", some "av", 7, "u3"⟩]))
      [⟨"v1", "t1", "A", "ChA", none, 10, "u1"⟩,
       ⟨"v2", "t2", "A", "ChA", none, 5, "u2"⟩,
       ⟨"v3", "t3", "B", "ChB", some "av", 7, "u3"⟩] :=
  ⟨((c8_grouping_partition
      [⟨"v1", "t1", "A", "ChA", none, 10, "u1"⟩,
       ⟨"v2", "t2", "A", "ChA", none, 5, "u2"⟩,
       ⟨"v3", "t3", "B", "ChB", some "av", 7, "u3"⟩]).2.2.1
      (("A", "ChA", ""),
        [⟨"v1", "t1", "A", "ChA", none, 10, "u1"⟩,
         ⟨"v2", "t2", "A", "ChA", none, 5, "u2"⟩])
      (by decide)
      ⟨"v1", "t1", "A", "ChA", none, 10, "u1"⟩ (by decide)),
   (c8_grouping_partition
      [⟨"v1", "t1", "A", "ChA", none, 10, "u1"⟩,
       ⟨"v2", "t2", "A", "ChA", none, 5, "u2"⟩,
       ⟨"v3", "t3", "B", "ChB", some "av", 7, "u3"⟩]).1⟩

/-- C10: on an empty dataset (with the data file present) the report
run writes the HTML document and then raises an unhandled
ZeroDivisionError at line 320, where the total video count is divided
by the number of channel groups with no guard against zero groups; the
write precedes the error in the trace. -/
theorem c10_empty_dataset_zero_division :
    visualizeMain true [] =
      ([VizEffect.writeHtml OUTPUT_FILE []], some VizError.zeroDivision) := by
  decide
